import Mathlib

/-!
# Library_Management — shallow embedding of the lending ledger

This file embeds the lending/return workflow of the Library_Management
repository (Electron app; better-sqlite3 store) and proves the frozen
claims about it.

Sources embedded:
* the SQL schema, CHECK constraints, triggers and views of the initial
  migration (`books`, `members`, `transactions` tables,
  `update_book_status_on_lend`, `update_book_status_on_return`,
  `active_loans` / `overdue_loans` views);
* `DatabaseService` (createBook, updateBook, deleteBook, deleteMember,
  createTransaction, getTransactionById, getActiveTransactions,
  getOverdueTransactions, returnBook, getAllSettings);
* the IPC handlers `transactions:lend`, `transactions:return`,
  `books:create`, `books:update`, `books:delete`, `members:delete`.

Modelling conventions:
* Dates are integer day numbers (`Nat`); the app's Clock is date-only for
  every comparison the claims mention (due-date arithmetic uses
  `date-fns` `addDays` / `differenceInDays` on dates, and the SQL views
  compare `date('now')`).
* Money is `Nat` (rates and fines in the code are integers).
* SQL rows are Lean structures with the snake_case column names.
  JavaScript property reads that miss (the handlers read the camelCase
  `book.availableCopies` and `member.memberType` on rows whose columns
  are `available_copies` / `member_type`) are modelled as functions
  returning `Option.none`, i.e. JS `undefined`.
* A failing statement (CHECK-constraint violation, including one raised
  from inside a trigger) aborts atomically: the operation returns
  `LibError.checkConstraint` and the state is unchanged.
* Each operation returns `Except LibError α × State`; on error the state
  component is the unchanged input state.
-/

namespace LibraryMgmt

/-- `member_type` column: CHECK (member_type IN ('student','faculty','public')). -/
inductive MemberType where
  | student
  | faculty
  | public
deriving DecidableEq, Repr

/-- `books.status` column: CHECK (status IN ('available','loaned','reserved')). -/
inductive BookStatus where
  | available
  | loaned
  | reserved
deriving DecidableEq, Repr

/-- `transactions.transaction_type`: 'lend' or 'return' ('return' is `ret`). -/
inductive TxnType where
  | lend
  | ret
deriving DecidableEq, Repr

/-- One row of the `books` table (column names kept). -/
structure Book where
  id : Nat
  title : String
  authors : List String
  isbn : Option String
  publisher : Option String
  publication_year : Option Nat
  genres : List String
  language : String
  total_copies : Nat
  available_copies : Nat
  location : Option String
  tags : List String
  description : Option String
  cover_image_path : Option String
  status : BookStatus
deriving DecidableEq, Repr

/-- One row of the `members` table (columns the core logic touches). -/
structure Member where
  id : Nat
  name : String
  member_id : String
  member_type : MemberType
deriving DecidableEq, Repr

/-- One row of the `transactions` table.  `createTransaction` always
supplies a due date, so `due_date` is total here; `return_date` is the
nullable column. -/
structure Txn where
  id : Nat
  book_id : Nat
  member_id : Nat
  transaction_type : TxnType
  transaction_date : Nat
  due_date : Nat
  return_date : Option Nat
  fine_amount : Nat
deriving DecidableEq, Repr

/-- One per-member-type entry of the `fineRules` setting, as stored in the
settings table / shared types: `{ dailyRate, gracePeriod, maxFine }`. -/
structure FineRule where
  dailyRate : Nat
  gracePeriod : Nat
  maxFine : Nat
deriving DecidableEq, Repr

/-- The parsed result of `getAllSettings()` restricted to the two keys the
transaction handlers read.  A `none` field models the key being absent
from the settings table (or holding malformed JSON, which `getAllSettings`
leaves as a plain string the handler's `||` fallback then replaces).
Per-member-type lookups yield `Option` because a stored JSON object can
lack a key. -/
structure SettingsMap where
  lendingPeriods : Option (MemberType → Option Nat)
  fineRules : Option (MemberType → Option FineRule)

/-- The whole persistent store plus the AUTOINCREMENT id counters. -/
structure State where
  books : List Book
  members : List Member
  txns : List Txn
  settings : SettingsMap
  nextBookId : Nat
  nextTxnId : Nat

/-- Error results surfaced by the handlers (`{ success:false, error }`)
or raised by the store. -/
inductive LibError where
  | requiredMissing
  | validationError
  | bookNotFound
  | memberNotFound
  | notAvailable
  | txnNotFound
  | alreadyReturned
  | activeLoansBook
  | activeLoansMember
  | checkConstraint
deriving DecidableEq, Repr

/-- The exact `error.message` strings the code produces for each case
(`checkConstraint` stands for the SQLite text, which embeds the failing
constraint name). -/
def LibError.message : LibError → String
  | .requiredMissing => "Book ID and Member ID are required"
  | .validationError => "Total copies must be between 1 and 1000"
  | .bookNotFound => "Book not found"
  | .memberNotFound => "Member not found"
  | .notAvailable => "Book is not available for lending"
  | .txnNotFound => "Transaction not found"
  | .alreadyReturned => "Book has already been returned"
  | .activeLoansBook => "Cannot delete book with active loans"
  | .activeLoansMember => "Cannot delete member with active loans"
  | .checkConstraint => "CHECK constraint failed"

/-- JS `x || d` on a number that may be `undefined` (0 is falsy). -/
def jsOrNat (x : Option Nat) (d : Nat) : Nat :=
  match x with
  | some v => if v = 0 then d else v
  | none => d

/-- JS `x <= 0` where `x` may be `undefined`: any comparison with
`undefined` is false (`undefined` coerces to NaN). -/
def jsLeZero (x : Option Nat) : Bool :=
  match x with
  | some v => v ≤ 0
  | none => false

/-- The lend handler reads `book.availableCopies`, but the row produced by
`getBookById` carries only the snake_case column `available_copies`; the
property access therefore yields `undefined`. -/
def bookAvailableCopiesCamel (_ : Book) : Option Nat := none

/-- The lend handler reads `member.memberType`, but the row produced by
`getMemberById` carries only the snake_case column `member_type`; the
property access therefore yields `undefined`. -/
def memberTypeCamel (_ : Member) : Option MemberType := none

/-- `SELECT ... FROM books WHERE id = ?` (`getBookById`, trigger targets). -/
def getBook (s : State) (bid : Nat) : Option Book :=
  s.books.find? (fun b => b.id == bid)

/-- `SELECT ... FROM members WHERE id = ?` (`getMemberById`). -/
def getMember (s : State) (mid : Nat) : Option Member :=
  s.members.find? (fun m => m.id == mid)

/-- Whether a transaction row is an open loan:
`transaction_type = 'lend' AND return_date IS NULL`. -/
def isOpenLend (t : Txn) : Bool :=
  t.transaction_type == TxnType.lend && t.return_date.isNone

/-- `SELECT COUNT(*) FROM transactions WHERE book_id = ? AND
transaction_type = 'lend' AND return_date IS NULL` (deleteBook guard,
and the open-transaction count of the availability invariant). -/
def openLoansForBook (txns : List Txn) (bid : Nat) : Nat :=
  (txns.filter (fun t => t.book_id == bid && isOpenLend t)).length

/-- Same count keyed by member (deleteMember guard). -/
def openLoansForMember (txns : List Txn) (mid : Nat) : Nat :=
  (txns.filter (fun t => t.member_id == mid && isOpenLend t)).length

/-- Hard default lending periods of the lend handler:
`{ student: 14, faculty: 30, public: 7 }`. -/
def fallbackLendingPeriod : MemberType → Nat
  | .student => 14
  | .faculty => 30
  | .public => 7

/-- `lendingPeriods[member.memberType] || 14` — the index is the camelCase
read, so it can be `undefined`, in which case the lookup itself yields
`undefined` and the `|| 14` fallback applies. -/
def lendingPeriodLookup (periods : MemberType → Option Nat) (mt : Option MemberType) : Nat :=
  match mt with
  | some t => jsOrNat (periods t) 14
  | none => 14

/-- Due-date computation of `transactions:lend` when no due date is given:
`settings.lendingPeriods || { student:14, faculty:30, public:7 }`, then
`lendingPeriods[member.memberType] || 14`, then `addDays(new Date(), period)`. -/
def computeDueDate (s : State) (m : Member) (now : Nat) : Nat :=
  let periods : MemberType → Option Nat :=
    match s.settings.lendingPeriods with
    | some p => p
    | none => fun t => some (fallbackLendingPeriod t)
  now + lendingPeriodLookup periods (memberTypeCamel m)

/-- Hard default fine rules of `transactions:return`:
`{ student: {dailyRate:5, maxFine:500}, faculty: {dailyRate:3, maxFine:300},
public: {dailyRate:10, maxFine:1000} }` (note: the handler's fallback
object has no gracePeriod field at all). -/
def fallbackDailyRate : MemberType → Nat
  | .student => 5
  | .faculty => 3
  | .public => 10

def fallbackMaxFine : MemberType → Nat
  | .student => 500
  | .faculty => 300
  | .public => 1000

/-- `(settings.fineRules || default)[memberType]?.dailyRate || 5`. -/
def dailyRateOf (fr : Option (MemberType → Option FineRule)) (mt : MemberType) : Nat :=
  match fr with
  | some f => jsOrNat ((f mt).map FineRule.dailyRate) 5
  | none => jsOrNat (some (fallbackDailyRate mt)) 5

/-- `(settings.fineRules || default)[memberType]?.maxFine || 500`. -/
def maxFineOf (fr : Option (MemberType → Option FineRule)) (mt : MemberType) : Nat :=
  match fr with
  | some f => jsOrNat ((f mt).map FineRule.maxFine) 500
  | none => jsOrNat (some (fallbackMaxFine mt)) 500

/-- Fine computation of the `transactions:return` handler:
`if (new Date(due_date) < new Date()) { daysOverdue = differenceInDays(now, due);
if (daysOverdue > 0) fine = Math.min(daysOverdue * dailyRate, maxFine) }`.
The member type used here is `transaction.member_type` — the snake_case
column of the joined row, so (unlike the lend path) a real value. -/
def computeFine (fr : Option (MemberType → Option FineRule)) (mt : MemberType)
    (due now : Nat) : Nat :=
  if due < now then
    let daysOverdue := now - due
    if 0 < daysOverdue then
      min (daysOverdue * dailyRateOf fr mt) (maxFineOf fr mt)
    else 0
  else 0

/-- Row CHECK constraints of the `books` table that involve the columns
the operations write: `chk_total_copies` (total_copies > 0),
`chk_available_not_more_than_total` (available_copies <= total_copies),
`chk_publication_year` (1000 <= year <= current year) and
`chk_language_length` (length(language) = 2).  `chk_available_copies`
(available_copies >= 0) is automatic for `Nat` except across the lend
trigger's decrement, which is modelled where it occurs. -/
def bookRowChecks (b : Book) (nowYear : Nat) : Bool :=
  decide (0 < b.total_copies) &&
  decide (b.available_copies ≤ b.total_copies) &&
  (match b.publication_year with
   | some y => decide (1000 ≤ y) && decide (y ≤ nowYear)
   | none => true) &&
  decide (b.language.length = 2)

/-- Input shape the renderer sends for book create/update (camelCase). -/
structure BookData where
  title : String
  authors : List String
  isbn : Option String
  publisher : Option String
  publicationYear : Option Nat
  genres : List String
  language : Option String
  totalCopies : Nat
  location : Option String
  tags : List String
  description : Option String
  coverImagePath : Option String
deriving DecidableEq, Repr

/-- JS `x || null` on an optional string (empty string is falsy). -/
def jsOrNull (x : Option String) : Option String :=
  match x with
  | some v => if v = "" then none else some v
  | none => none

/-- The row `DatabaseService.createBook` inserts: `available_copies`
initialised to `totalCopies` ("Initial available copies equals total"),
status 'available', `||`-fallbacks on the optional columns. -/
def newBookRow (s : State) (d : BookData) : Book :=
  { id := s.nextBookId
    title := d.title
    authors := d.authors
    isbn := jsOrNull d.isbn
    publisher := jsOrNull d.publisher
    publication_year := d.publicationYear
    genres := d.genres
    language := (jsOrNull d.language).getD "en"
    total_copies := d.totalCopies
    available_copies := d.totalCopies
    location := jsOrNull d.location
    tags := d.tags
    description := jsOrNull d.description
    cover_image_path := jsOrNull d.coverImagePath
    status := .available }

/-- `books:create` handler validation plus `DatabaseService.createBook`:
INSERT of `newBookRow`; the new row must satisfy the table CHECKs. -/
def createBook (s : State) (d : BookData) (nowYear : Nat) :
    Except LibError Book × State :=
  if d.title = "" ∨ d.authors = [] then
    (.error .validationError, s)
  else if d.totalCopies ≠ 0 ∧ (d.totalCopies < 1 ∨ 1000 < d.totalCopies) then
    (.error .validationError, s)
  else if bookRowChecks (newBookRow s d) nowYear then
    (.ok (newBookRow s d),
     { s with books := s.books ++ [newBookRow s d], nextBookId := s.nextBookId + 1 })
  else
    (.error .checkConstraint, s)

/-- The SET list of `DatabaseService.updateBook`: the descriptive columns
and `total_copies` only — `available_copies` and `status` do not appear
in it, so they are carried over from the existing row unchanged. -/
def updatedBookRow (b : Book) (d : BookData) : Book :=
  { b with
    title := d.title
    authors := d.authors
    isbn := jsOrNull d.isbn
    publisher := jsOrNull d.publisher
    publication_year := d.publicationYear
    genres := d.genres
    language := (jsOrNull d.language).getD "en"
    total_copies := d.totalCopies
    location := jsOrNull d.location
    tags := d.tags
    description := jsOrNull d.description
    cover_image_path := jsOrNull d.coverImagePath }

/-- `books:update` handler validation plus `DatabaseService.updateBook`:
UPDATE to `updatedBookRow`; the updated row must still satisfy the table
CHECKs. -/
def updateBook (s : State) (bid : Nat) (d : BookData) (nowYear : Nat) :
    Except LibError Book × State :=
  if d.title = "" ∨ d.authors = [] then
    (.error .validationError, s)
  else if d.totalCopies ≠ 0 ∧ (d.totalCopies < 1 ∨ 1000 < d.totalCopies) then
    (.error .validationError, s)
  else
    match getBook s bid with
    | none => (.error .bookNotFound, s)
    | some b =>
      if bookRowChecks (updatedBookRow b d) nowYear then
        (.ok (updatedBookRow b d),
         { s with
           books := s.books.map (fun c => if c.id = bid then updatedBookRow c d else c) })
      else
        (.error .checkConstraint, s)

/-- `books:delete` handler plus `DatabaseService.deleteBook`: refuse while
open loans exist, else DELETE; `foreign_keys = ON` makes the book's
transactions cascade. -/
def deleteBook (s : State) (bid : Nat) : Except LibError Unit × State :=
  if 0 < openLoansForBook s.txns bid then
    (.error .activeLoansBook, s)
  else if (getBook s bid).isNone then
    (.error .bookNotFound, s)
  else
    (.ok (),
     { s with
       books := s.books.filter (fun b => b.id != bid)
       txns := s.txns.filter (fun t => t.book_id != bid) })

/-- `members:delete` handler plus `DatabaseService.deleteMember`. -/
def deleteMember (s : State) (mid : Nat) : Except LibError Unit × State :=
  if 0 < openLoansForMember s.txns mid then
    (.error .activeLoansMember, s)
  else if (getMember s mid).isNone then
    (.error .memberNotFound, s)
  else
    (.ok (),
     { s with
       members := s.members.filter (fun m => m.id != mid)
       txns := s.txns.filter (fun t => t.member_id != mid) })

/-- The `update_book_status_on_lend` trigger body, applied to a row whose
pre-decrement `available_copies` is at least 1 (the 0 case aborts on
`chk_available_copies` and is handled by the caller): `available_copies
:= available_copies - 1` and the three-way status CASE. -/
def lendTrigger (b : Book) : Book :=
  { b with
    available_copies := b.available_copies - 1
    status :=
      if b.available_copies - 1 = 0 then .loaned
      else if 0 < b.available_copies - 1 then .available
      else .reserved }

/-- The handler's `calculatedDueDate`: the caller-supplied due date when
present, otherwise the computed one. -/
def lendDue (s : State) (member : Member) (dueDate : Option Nat) (now : Nat) : Nat :=
  match dueDate with
  | some d => d
  | none => computeDueDate s member now

/-- The row `DatabaseService.createTransaction` inserts for a lend:
type 'lend', `transaction_date` defaulted to CURRENT_TIMESTAMP, null
`return_date`, `fine_amount` defaulted to 0. -/
def newTxnRow (s : State) (bookId memberId due now : Nat) : Txn :=
  { id := s.nextTxnId
    book_id := bookId
    member_id := memberId
    transaction_type := .lend
    transaction_date := now
    due_date := due
    return_date := none
    fine_amount := 0 }

/-- The `transactions:lend` IPC handler end to end: falsy-id validation,
`getBookById`, the (dead) availability guard, `getMemberById`, due-date
computation, `createTransaction`'s INSERT with its row CHECKs, and the
`update_book_status_on_lend` trigger with its CHECK aborts. -/
def lend (s : State) (bookId memberId : Nat) (dueDate : Option Nat) (now : Nat) :
    Except LibError Txn × State :=
  if bookId = 0 ∨ memberId = 0 then
    (.error .requiredMissing, s)
  else
    match getBook s bookId with
    | none => (.error .bookNotFound, s)
    | some book =>
      if jsLeZero (bookAvailableCopiesCamel book) then
        (.error .notAvailable, s)
      else
        match getMember s memberId with
        | none => (.error .memberNotFound, s)
        | some member =>
          let due : Nat := lendDue s member dueDate now
          if due < now then
            -- chk_due_date_after_lend: due_date >= transaction_date
            (.error .checkConstraint, s)
          else if book.available_copies = 0 then
            -- the trigger's UPDATE would set available_copies to -1,
            -- violating chk_available_copies; the whole INSERT aborts
            (.error .checkConstraint, s)
          else if book.total_copies < book.available_copies - 1 then
            -- chk_available_not_more_than_total re-checked by the trigger
            (.error .checkConstraint, s)
          else
            (.ok (newTxnRow s bookId memberId due now),
             { s with
               books := s.books.map (fun b => if b.id = bookId then lendTrigger b else b)
               txns := s.txns ++ [newTxnRow s bookId memberId due now]
               nextTxnId := s.nextTxnId + 1 })

/-- `getTransactionById`: `SELECT t.*, b.title, m.name, m.member_type FROM
transactions t JOIN books b ... JOIN members m ... WHERE t.id = ?`.  The
inner joins require the book and member rows to exist. -/
def getTxnJoined (s : State) (tid : Nat) : Option (Txn × Book × Member) :=
  match s.txns.find? (fun t => t.id == tid) with
  | none => none
  | some t =>
    match getBook s t.book_id, getMember s t.member_id with
    | some b, some m => some (t, b, m)
    | _, _ => none

/-- The `update_book_status_on_return` trigger body: `available_copies :=
available_copies + 1`, `status := 'available'` (unconditionally). -/
def returnTrigger (b : Book) : Book :=
  { b with available_copies := b.available_copies + 1, status := .available }

/-- `returnBook`'s UPDATE on the transaction row: `return_date` set to
CURRENT_TIMESTAMP, `fine_amount` set, `transaction_type` flipped to
'return'. -/
def closedTxnRow (t : Txn) (now fine : Nat) : Txn :=
  { t with
    return_date := some now
    fine_amount := fine
    transaction_type := .ret }

/-- The `transactions:return` IPC handler end to end: falsy-id validation,
`getTransactionById`, the already-returned guard, fine computation, and
`returnBook`'s UPDATE (sets return_date, fine_amount, flips the type to
'return') with the row CHECK `chk_return_date_after_lend` and the
`update_book_status_on_return` trigger with its CHECK aborts. -/
def returnOp (s : State) (tid : Nat) (now : Nat) : Except LibError Txn × State :=
  if tid = 0 then
    (.error .requiredMissing, s)
  else
    match getTxnJoined s tid with
    | none => (.error .txnNotFound, s)
    | some (t, b, m) =>
      match t.return_date with
      | some _ => (.error .alreadyReturned, s)
      | none =>
        let fine := computeFine s.settings.fineRules m.member_type t.due_date now
        if now < t.transaction_date then
          -- chk_return_date_after_lend: return_date >= transaction_date
          (.error .checkConstraint, s)
        else if b.total_copies < b.available_copies + 1 then
          -- chk_available_not_more_than_total re-checked by the trigger
          (.error .checkConstraint, s)
        else
          (.ok (closedTxnRow t now fine),
           { s with
             txns := s.txns.map (fun u => if u.id = tid then closedTxnRow t now fine else u)
             books := s.books.map (fun c => if c.id = t.book_id then returnTrigger c else c) })

/-- Loan status annotation of the `getActiveTransactions` query:
`CASE WHEN t.due_date < date('now') THEN 'overdue' ELSE 'on_time' END`. -/
inductive LoanStatus where
  | overdue
  | on_time
deriving DecidableEq, Repr

/-- One row of the active/overdue projections: the transaction columns
plus the joined display fields and the computed annotations. -/
structure ActiveLoanRow where
  txn : Txn
  book_title : String
  member_name : String
  member_type : MemberType
  status : LoanStatus
  days_overdue : Int
deriving DecidableEq, Repr

/-- The JOIN and computed columns shared by both projections.
`days_overdue` is `julianday('now') - julianday(due_date)`, a signed
difference, here in whole days since the Clock is date-only. -/
def joinRow (s : State) (now : Nat) (t : Txn) : Option ActiveLoanRow :=
  match getBook s t.book_id, getMember s t.member_id with
  | some b, some m =>
    some
      { txn := t
        book_title := b.title
        member_name := m.name
        member_type := m.member_type
        status := if t.due_date < now then .overdue else .on_time
        days_overdue := (now : Int) - (t.due_date : Int) }
  | _, _ => none

/-- `getActiveTransactions`: open lend rows joined and annotated,
`ORDER BY due_date ASC`.  A pure SELECT: the state is returned unchanged. -/
def getActiveTransactions (s : State) (now : Nat) : List ActiveLoanRow × State :=
  (((s.txns.filter (fun t => isOpenLend t)).filterMap (joinRow s now)).mergeSort
    (fun a b => a.txn.due_date ≤ b.txn.due_date), s)

/-- `getOverdueTransactions`: open lend rows with `due_date <
date('now')`, joined and annotated, `ORDER BY due_date ASC`.  A pure
SELECT: the state is returned unchanged. -/
def getOverdueTransactions (s : State) (now : Nat) : List ActiveLoanRow × State :=
  (((s.txns.filter (fun t => isOpenLend t && decide (t.due_date < now))).filterMap
      (joinRow s now)).mergeSort (fun a b => a.txn.due_date ≤ b.txn.due_date), s)

/-- Reachability well-formedness of a store: unique surrogate ids
(INTEGER PRIMARY KEY), AUTOINCREMENT counters strictly above every stored
id, transaction foreign keys below the book counter, and 'return'-typed
rows always carrying a return date (`returnBook` sets both in one
UPDATE; `createTransaction` only inserts 'lend' rows). -/
def WF (s : State) : Prop :=
  (s.books.map Book.id).Nodup ∧
  (s.txns.map Txn.id).Nodup ∧
  (∀ b ∈ s.books, b.id < s.nextBookId) ∧
  (∀ t ∈ s.txns, t.id < s.nextTxnId) ∧
  (∀ t ∈ s.txns, t.book_id < s.nextBookId) ∧
  (∀ t ∈ s.txns, t.return_date = none → t.transaction_type = TxnType.lend)

/-- The availability invariant: for every book, `available_copies` equals
`total_copies` minus the number of open transactions for that book
(equivalently, `available_copies + count(open) = total_copies`). -/
def AvailInv (s : State) : Prop :=
  ∀ b ∈ s.books,
    b.available_copies = b.total_copies - openLoansForBook s.txns b.id ∧
    b.available_copies + openLoansForBook s.txns b.id = b.total_copies

/-! Concrete states used by the witness theorems. -/

/-- An empty settings table: both keys absent, all fallbacks apply. -/
def demoSettings : SettingsMap := { lendingPeriods := none, fineRules := none }

def demoBook : Book :=
  { id := 1
    title := "Dune"
    authors := ["Frank Herbert"]
    isbn := none
    publisher := none
    publication_year := none
    genres := ["scifi"]
    language := "en"
    total_copies := 2
    available_copies := 2
    location := none
    tags := []
    description := none
    cover_image_path := none
    status := .available }

def demoMember : Member :=
  { id := 1, name := "Ada", member_id := "MEM001", member_type := .faculty }

def demoState : State :=
  { books := [demoBook]
    members := [demoMember]
    txns := []
    settings := demoSettings
    nextBookId := 2
    nextTxnId := 1 }

/-- A single-copy book whose one copy is out: `available_copies = 0`. -/
def demoBookZero : Book :=
  { demoBook with total_copies := 1, available_copies := 0, status := .loaned }

def demoOpenTxn : Txn :=
  { id := 1
    book_id := 1
    member_id := 1
    transaction_type := .lend
    transaction_date := 100
    due_date := 114
    return_date := none
    fine_amount := 0 }

def demoStateZero : State :=
  { demoState with books := [demoBookZero], txns := [demoOpenTxn], nextTxnId := 2 }

/-! ## Helper lemmas -/

theorem find?_map_of_pred {α : Type} (l : List α) (p : α → Bool) (g : α → α)
    (h : ∀ a, p (g a) = p a) :
    (l.map g).find? p = (l.find? p).map g := by
  induction l with
  | nil => rfl
  | cons a l ih =>
    cases hp : p a with
    | true =>
      rw [List.map_cons, List.find?_cons_of_pos _ (by rw [h a]; exact hp),
        List.find?_cons_of_pos _ hp]
      rfl
    | false =>
      rw [List.map_cons, List.find?_cons_of_neg _ (by rw [h a]; simp [hp]),
        List.find?_cons_of_neg _ (by simp [hp]), ih]

theorem mem_map_update {α : Type} {l : List α} {g : α → α} {q : α → Prop}
    [DecidablePred q] {x : α}
    (hx : x ∈ l.map (fun a => if q a then g a else a)) :
    (∃ a, a ∈ l ∧ q a ∧ x = g a) ∨ (∃ a, a ∈ l ∧ ¬ q a ∧ x = a) := by
  rcases List.mem_map.mp hx with ⟨a, ha, hax⟩
  by_cases hq : q a
  · left; exact ⟨a, ha, hq, by rw [← hax]; simp [hq]⟩
  · right; exact ⟨a, ha, hq, by rw [← hax]; simp [hq]⟩

theorem map_of_update {α β : Type} (l : List α) (f : α → β) (g : α → α)
    (q : α → Prop) [DecidablePred q] (h : ∀ a ∈ l, q a → f (g a) = f a) :
    (l.map (fun a => if q a then g a else a)).map f = l.map f := by
  rw [List.map_map]
  exact List.map_congr_left (fun a ha => by by_cases hq : q a <;> simp [hq, h a ha])

theorem openLoansForBook_append (txns : List Txn) (t : Txn) (bid : Nat) :
    openLoansForBook (txns ++ [t]) bid
      = openLoansForBook txns bid
        + (if t.book_id == bid && isOpenLend t then 1 else 0) := by
  simp only [openLoansForBook, List.filter_append, List.length_append]
  cases h : t.book_id == bid && isOpenLend t <;> simp [List.filter_cons, h]

theorem openLoansForBook_eq_zero (txns : List Txn) (bid : Nat)
    (h : ∀ t ∈ txns, t.book_id ≠ bid) : openLoansForBook txns bid = 0 := by
  simp only [openLoansForBook, List.length_eq_zero, List.filter_eq_nil_iff]
  intro t ht
  simp [h t ht]

theorem filter_length_map_update (l : List Txn) (tid : Nat) (t t' : Txn)
    (p : Txn → Bool)
    (hfind : l.find? (fun u => u.id == tid) = some t)
    (hnd : (l.map Txn.id).Nodup) :
    ((l.map (fun u => if u.id = tid then t' else u)).filter p).length
        + (if p t then 1 else 0)
      = (l.filter p).length + (if p t' then 1 else 0) := by
  induction l with
  | nil => simp at hfind
  | cons a l ih =>
    simp only [List.map_cons, List.nodup_cons] at hnd
    by_cases ha : a.id = tid
    · have hat : a = t := by
        rw [List.find?_cons_of_pos _ (by simp [ha])] at hfind
        exact Option.some.inj hfind
      have htail : ∀ u ∈ l, ¬ (u.id = tid) := by
        intro u hu heq
        exact hnd.1 (by rw [ha, ← heq]; exact List.mem_map_of_mem Txn.id hu)
      have hmap : l.map (fun u => if u.id = tid then t' else u) = l := by
        conv_rhs => rw [← List.map_id l]
        exact List.map_congr_left (fun u hu => by simp [htail u hu])
      subst hat
      simp only [List.map_cons, if_pos ha, hmap, List.filter_cons]
      cases hpt : p a <;> cases hpt' : p t' <;> simp [hpt, hpt']
    · have hfind' : l.find? (fun u => u.id == tid) = some t := by
        rw [List.find?_cons_of_neg _ (by simp [ha])] at hfind
        exact hfind
      have := ih hfind' hnd.2
      simp only [List.map_cons, if_neg ha, List.filter_cons]
      cases hpa : p a <;> simp [hpa] <;> omega

theorem eq_of_mem_nodup_book {l : List Book} (hnd : (l.map Book.id).Nodup)
    {a b : Book} (ha : a ∈ l) (hb : b ∈ l) (h : a.id = b.id) : a = b :=
  List.inj_on_of_nodup_map hnd ha hb h

theorem createBook_preserves (s : State) (hwf : WF s) (hinv : AvailInv s)
    (d : BookData) (y : Nat) (b : Book)
    (h : (createBook s d y).1 = Except.ok b) :
    AvailInv (createBook s d y).2 ∧ WF (createBook s d y).2 ∧
      b.available_copies = b.total_copies ∧
      openLoansForBook (createBook s d y).2.txns b.id = 0 := by
  obtain ⟨hbnd, htnd, hbb, htb, htbk, htret⟩ := hwf
  by_cases h1 : d.title = "" ∨ d.authors = []
  · simp only [createBook, if_pos h1] at h
    simp at h
  · by_cases h2 : d.totalCopies ≠ 0 ∧ (d.totalCopies < 1 ∨ 1000 < d.totalCopies)
    · simp only [createBook, if_neg h1, if_pos h2] at h
      simp at h
    · by_cases h3 : bookRowChecks (newBookRow s d) y = true
      · simp only [createBook, if_neg h1, if_neg h2, if_pos h3] at h ⊢
        obtain rfl : newBookRow s d = b := by
          simpa using h
        have hfresh : ∀ t ∈ s.txns, t.book_id ≠ s.nextBookId := by
          intro t ht
          exact Nat.ne_of_lt (htbk t ht)
        have hopen0 : openLoansForBook s.txns s.nextBookId = 0 :=
          openLoansForBook_eq_zero s.txns s.nextBookId hfresh
        refine ⟨?_, ⟨?_, htnd, ?_, htb, ?_, htret⟩, rfl, ?_⟩
        · intro b' hb'
          rcases List.mem_append.mp hb' with hb' | hb'
          · exact hinv b' hb'
          · rcases List.mem_singleton.mp hb' with rfl
            simp only [newBookRow] at hopen0 ⊢
            simp [hopen0]
        · rw [List.map_append]
          rw [List.nodup_append]
          refine ⟨hbnd, List.nodup_singleton _, ?_⟩
          intro x hx hx'
          rcases List.mem_map.mp hx with ⟨b₀, hb₀, rfl⟩
          simp only [List.map_cons, List.map_nil, List.mem_singleton, newBookRow] at hx'
          exact absurd hx' (Nat.ne_of_lt (hbb b₀ hb₀))
        · intro b' hb'
          rcases List.mem_append.mp hb' with hb' | hb'
          · exact Nat.lt_succ_of_lt (hbb b' hb')
          · rcases List.mem_singleton.mp hb' with rfl
            exact Nat.lt_succ_self _
        · intro t ht
          exact Nat.lt_succ_of_lt (htbk t ht)
        · exact hopen0
      · simp only [createBook, if_neg h1, if_neg h2, if_neg h3] at h
        simp at h

/-- The availability guard of the lend handler compares `undefined` with
0, which is always false: the guard can never fire. -/
theorem jsLeZero_camel (b : Book) : jsLeZero (bookAvailableCopiesCamel b) = false := rfl

theorem lend_preserves (s : State) (hwf : WF s) (hinv : AvailInv s)
    (bid mid : Nat) (dd : Option Nat) (now : Nat) (t : Txn)
    (h : (lend s bid mid dd now).1 = Except.ok t) :
    AvailInv (lend s bid mid dd now).2 ∧ WF (lend s bid mid dd now).2 := by
  obtain ⟨hbnd, htnd, hbb, htb, htbk, htret⟩ := hwf
  by_cases h0 : bid = 0 ∨ mid = 0
  · simp only [lend, if_pos h0] at h
    simp at h
  · cases hgb : getBook s bid with
    | none =>
      simp only [lend, if_neg h0, hgb] at h
      simp at h
    | some book =>
      cases hgm : getMember s mid with
      | none =>
        simp only [lend, if_neg h0, hgb, jsLeZero_camel,
          Bool.false_eq_true, if_false, hgm] at h
        simp at h
      | some member =>
        have hbookmem : book ∈ s.books := List.mem_of_find?_eq_some hgb
        have hbookid : book.id = bid := by
          have := List.find?_some hgb
          simpa using this
        by_cases hc1 : lendDue s member dd now < now
        · simp only [lend, if_neg h0, hgb, jsLeZero_camel,
            Bool.false_eq_true, if_false, hgm, if_pos hc1] at h
          simp at h
        · by_cases hc2 : book.available_copies = 0
          · simp only [lend, if_neg h0, hgb, jsLeZero_camel,
              Bool.false_eq_true, if_false, hgm, if_neg hc1, if_pos hc2] at h
            simp at h
          · by_cases hc3 : book.total_copies < book.available_copies - 1
            · simp only [lend, if_neg h0, hgb, jsLeZero_camel,
                Bool.false_eq_true, if_false, hgm, if_neg hc1, if_neg hc2, if_pos hc3] at h
              simp at h
            · simp only [lend, if_neg h0, hgb, jsLeZero_camel,
                Bool.false_eq_true, if_false, hgm, if_neg hc1, if_neg hc2, if_neg hc3] at h ⊢
              set due := lendDue s member dd now with hduedef
              set nt := newTxnRow s bid mid due now with hntdef
              have hntbook : nt.book_id = bid := rfl
              have hntopen : isOpenLend nt = true := rfl
              constructor
              · -- AvailInv
                intro b' hb'
                rcases mem_map_update hb' with ⟨b₀, hb₀, hq, rfl⟩ | ⟨b₀, hb₀, hq, rfl⟩
                · have hb₀book : b₀ = book :=
                    eq_of_mem_nodup_book hbnd hb₀ hbookmem (by rw [hq, hbookid])
                  subst hb₀book
                  have hid : (lendTrigger b₀).id = b₀.id := rfl
                  rw [hid, hq]
                  rw [openLoansForBook_append]
                  have hcond : (nt.book_id == bid && isOpenLend nt) = true := by
                    simp [hntbook, hntopen]
                  rw [if_pos hcond]
                  have hi := (hinv b₀ hb₀).2
                  rw [hq] at hi
                  have hav : b₀.available_copies ≠ 0 := hc2
                  simp only [lendTrigger]
                  omega
                · rw [openLoansForBook_append]
                  have hcond : ¬ ((nt.book_id == b'.id && isOpenLend nt) = true) := by
                    simp only [hntbook, Bool.and_eq_true, beq_iff_eq]
                    intro hbe
                    exact hq hbe.1.symm
                  rw [if_neg hcond]
                  have hi := hinv b' hb₀
                  simpa using hi
              · -- WF
                refine ⟨?_, ?_, ?_, ?_, ?_, ?_⟩
                · rw [map_of_update s.books Book.id lendTrigger (fun b => b.id = bid)
                    (fun a _ _ => rfl)]
                  exact hbnd
                · rw [List.map_append]
                  rw [List.nodup_append]
                  refine ⟨htnd, List.nodup_singleton _, ?_⟩
                  intro x hx hx'
                  rcases List.mem_map.mp hx with ⟨t₀, ht₀, rfl⟩
                  simp only [List.map_cons, List.map_nil, List.mem_singleton] at hx'
                  have : t₀.id < s.nextTxnId := htb t₀ ht₀
                  rw [hx'] at this
                  exact absurd this (by simp [hntdef, newTxnRow])
                · intro b' hb'
                  rcases mem_map_update hb' with ⟨b₀, hb₀, _, rfl⟩ | ⟨b₀, hb₀, _, rfl⟩
                  · exact hbb b₀ hb₀
                  · exact hbb b' hb₀
                · intro t₀ ht₀
                  rcases List.mem_append.mp ht₀ with ht₀ | ht₀
                  · exact Nat.lt_succ_of_lt (htb t₀ ht₀)
                  · rcases List.mem_singleton.mp ht₀ with rfl
                    exact Nat.lt_succ_self _
                · intro t₀ ht₀
                  rcases List.mem_append.mp ht₀ with ht₀ | ht₀
                  · exact htbk t₀ ht₀
                  · rcases List.mem_singleton.mp ht₀ with rfl
                    rw [hntbook, ← hbookid]
                    exact hbb book hbookmem
                · intro t₀ ht₀ hret
                  rcases List.mem_append.mp ht₀ with ht₀ | ht₀
                  · exact htret t₀ ht₀ hret
                  · rcases List.mem_singleton.mp ht₀ with rfl
                    rfl

theorem getTxnJoined_eq_some {s : State} {tid : Nat} {t : Txn} {b : Book} {m : Member}
    (h : getTxnJoined s tid = some (t, b, m)) :
    s.txns.find? (fun u => u.id == tid) = some t ∧
      getBook s t.book_id = some b ∧ getMember s t.member_id = some m := by
  cases hf : s.txns.find? (fun u => u.id == tid) with
  | none =>
    simp only [getTxnJoined, hf] at h
    simp at h
  | some t0 =>
    cases hb : getBook s t0.book_id with
    | none =>
      simp only [getTxnJoined, hf, hb] at h
      simp at h
    | some b0 =>
      cases hm : getMember s t0.member_id with
      | none =>
        simp only [getTxnJoined, hf, hb, hm] at h
        simp at h
      | some m0 =>
        simp only [getTxnJoined, hf, hb, hm, Option.some.injEq] at h
        obtain ⟨rfl, rfl, rfl⟩ : t0 = t ∧ b0 = b ∧ m0 = m := by
          simpa using h
        exact ⟨rfl, hb, hm⟩

theorem returnOp_preserves (s : State) (hwf : WF s) (hinv : AvailInv s)
    (tid now : Nat) (t' : Txn)
    (h : (returnOp s tid now).1 = Except.ok t') :
    AvailInv (returnOp s tid now).2 ∧ WF (returnOp s tid now).2 := by
  obtain ⟨hbnd, htnd, hbb, htb, htbk, htret⟩ := hwf
  by_cases h0 : tid = 0
  · simp only [returnOp, if_pos h0] at h
    simp at h
  · cases hj : getTxnJoined s tid with
    | none =>
      simp only [returnOp, if_neg h0, hj] at h
      simp at h
    | some tbm =>
      obtain ⟨t, b, m⟩ := tbm
      obtain ⟨hfind, hgb, hgm⟩ := getTxnJoined_eq_some hj
      have htmem : t ∈ s.txns := List.mem_of_find?_eq_some hfind
      have htid : t.id = tid := by
        have := List.find?_some hfind
        simpa using this
      have hbmem : b ∈ s.books := List.mem_of_find?_eq_some hgb
      have hbid : b.id = t.book_id := by
        have := List.find?_some hgb
        simpa using this
      cases hrd : t.return_date with
      | some r =>
        simp only [returnOp, if_neg h0, hj, hrd] at h
        simp at h
      | none =>
        have htype : t.transaction_type = TxnType.lend := htret t htmem hrd
        have htopen : isOpenLend t = true := by
          simp [isOpenLend, htype, hrd]
        by_cases hc1 : now < t.transaction_date
        · simp only [returnOp, if_neg h0, hj, hrd, if_pos hc1] at h
          simp at h
        · by_cases hc2 : b.total_copies < b.available_copies + 1
          · simp only [returnOp, if_neg h0, hj, hrd, if_neg hc1, if_pos hc2] at h
            simp at h
          · simp only [returnOp, if_neg h0, hj, hrd, if_neg hc1, if_neg hc2] at h ⊢
            set fine := computeFine s.settings.fineRules m.member_type t.due_date now
              with hfinedef
            set ct := closedTxnRow t now fine with hctdef
            have hctid : ct.id = tid := by rw [hctdef]; exact htid
            have hctbook : ct.book_id = t.book_id := rfl
            have hctclosed : isOpenLend ct = false := by
              simp [isOpenLend, hctdef, closedTxnRow]
            -- open-loan counts in the updated transaction list
            have hcount : ∀ k : Nat,
                openLoansForBook
                    (s.txns.map (fun u => if u.id = tid then ct else u)) k
                    + (if (t.book_id == k && isOpenLend t) = true then 1 else 0)
                  = openLoansForBook s.txns k
                    + (if (ct.book_id == k && isOpenLend ct) = true then 1 else 0) := by
              intro k
              exact filter_length_map_update s.txns tid t ct
                (fun u => u.book_id == k && isOpenLend u) hfind htnd
            constructor
            · -- AvailInv
              intro b' hb'
              rcases mem_map_update hb' with ⟨b₀, hb₀, hq, rfl⟩ | ⟨b₀, hb₀, hq, rfl⟩
              · have hb₀b : b₀ = b :=
                  eq_of_mem_nodup_book hbnd hb₀ hbmem (by rw [hq, hbid])
                subst hb₀b
                have hkey : (returnTrigger b₀).id = t.book_id := by
                  have : (returnTrigger b₀).id = b₀.id := rfl
                  rw [this, hq]
                rw [hkey]
                have hc := hcount t.book_id
                rw [if_pos (by simp [htopen]), if_neg (by simp [hctclosed])] at hc
                have hi := (hinv b₀ hb₀).2
                rw [hq] at hi
                simp only [returnTrigger]
                omega
              · have hc := hcount b'.id
                rw [if_neg (by simp [htopen]; intro hbe; exact absurd hbe.symm hq),
                  if_neg (by simp [hctclosed])] at hc
                have hi := hinv b' hb₀
                dsimp only
                omega
            · -- WF
              refine ⟨?_, ?_, ?_, ?_, ?_, ?_⟩
              · rw [map_of_update s.books Book.id returnTrigger (fun c => c.id = t.book_id)
                  (fun a _ _ => rfl)]
                exact hbnd
              · rw [map_of_update s.txns Txn.id (fun _ => ct) (fun u => u.id = tid)
                  (fun a _ ha => by rw [hctid, ha])]
                exact htnd
              · intro b' hb'
                rcases mem_map_update hb' with ⟨b₀, hb₀, _, rfl⟩ | ⟨b₀, hb₀, _, rfl⟩
                · exact hbb b₀ hb₀
                · exact hbb b' hb₀
              · intro t₀ ht₀
                rcases mem_map_update ht₀ with ⟨u, hu, _, rfl⟩ | ⟨u, hu, _, rfl⟩
                · have : ct.id = t.id := by rw [hctid, htid]
                  rw [this]
                  exact htb t htmem
                · exact htb t₀ hu
              · intro t₀ ht₀
                rcases mem_map_update ht₀ with ⟨u, hu, _, rfl⟩ | ⟨u, hu, _, rfl⟩
                · rw [hctbook]
                  exact htbk t htmem
                · exact htbk t₀ hu
              · intro t₀ ht₀ hret₀
                rcases mem_map_update ht₀ with ⟨u, hu, _, rfl⟩ | ⟨u, hu, _, rfl⟩
                · exact absurd hret₀ (by simp [hctdef, closedTxnRow])
                · exact htret t₀ hu hret₀

/-- **C1**: for every book, after every successful lend operation and every
successful return operation, `available_copies` equals `total_copies` minus
the number of open transactions for that book (transactions with type
'lend' and null return date), starting from creation, where
`available_copies` is initialised to `total_copies` with zero open
transactions.  Stated as: from any well-formed state satisfying the
invariant, `createBook` establishes it for the new book (initialising
`available_copies := total_copies` with zero open transactions) and
`lend` / `returnOp` preserve it for every book. -/
theorem C1_availability_invariant (s : State) (hwf : WF s) (hinv : AvailInv s) :
    (∀ d y b, (createBook s d y).1 = Except.ok b →
        AvailInv (createBook s d y).2 ∧ WF (createBook s d y).2 ∧
        b.available_copies = b.total_copies ∧
        openLoansForBook (createBook s d y).2.txns b.id = 0) ∧
    (∀ bid mid dd now t, (lend s bid mid dd now).1 = Except.ok t →
        AvailInv (lend s bid mid dd now).2 ∧ WF (lend s bid mid dd now).2) ∧
    (∀ tid now t', (returnOp s tid now).1 = Except.ok t' →
        AvailInv (returnOp s tid now).2 ∧ WF (returnOp s tid now).2) :=
  ⟨fun d y b h => createBook_preserves s hwf hinv d y b h,
   fun bid mid dd now t h => lend_preserves s hwf hinv bid mid dd now t h,
   fun tid now t' h => returnOp_preserves s hwf hinv tid now t' h⟩

/-- Witness for C1: the invariant, instantiated on a concrete store, is
carried across a concrete successful lend. -/
theorem C1_availability_invariant_witness :
    AvailInv (lend demoState 1 1 none 100).2 ∧ WF (lend demoState 1 1 none 100).2 := by
  have hwf : WF demoState := by
    unfold WF demoState demoBook demoMember
    decide
  have hinv : AvailInv demoState := by
    unfold AvailInv demoState demoBook
    decide
  exact (C1_availability_invariant demoState hwf hinv).2.1 1 1 none 100
    (newTxnRow demoState 1 1 114 100) rfl

/-- **C2** (code bug): the claim says a lend on an existing book with zero
available copies fails with the NotAvailable error ('Book is not available
for lending') and creates no transaction row.  In the code the guard reads
`book.availableCopies`, which is `undefined` on the snake_case row, and
`undefined <= 0` is false, so the guard can never fire: the handler
instead attempts the INSERT and the lend trigger's decrement violates
`chk_available_copies`, aborting the whole statement with a store
CHECK-constraint error.  No transaction row is created, but the error is
the constraint failure, never NotAvailable. -/
theorem C2_notAvailable_guard_dead :
    (∀ s bid mid dd now,
        (lend s bid mid dd now).1 ≠ Except.error LibError.notAvailable) ∧
    (∀ s bid mid now book member,
        bid ≠ 0 → mid ≠ 0 →
        getBook s bid = some book → book.available_copies = 0 →
        getMember s mid = some member →
        lend s bid mid none now = (Except.error LibError.checkConstraint, s)) := by
  constructor
  · intro s bid mid dd now
    by_cases h0 : bid = 0 ∨ mid = 0
    · simp [lend, h0]
    · cases hgb : getBook s bid with
      | none => simp [lend, h0, hgb]
      | some book =>
        cases hgm : getMember s mid with
        | none => simp [lend, h0, hgb, hgm, jsLeZero_camel]
        | some member =>
          by_cases hc1 : lendDue s member dd now < now
          · simp [lend, h0, hgb, hgm, jsLeZero_camel, hc1]
          · by_cases hc2 : book.available_copies = 0
            · simp [lend, h0, hgb, hgm, jsLeZero_camel, hc1, hc2]
            · by_cases hc3 : book.total_copies < book.available_copies - 1
              · simp [lend, h0, hgb, hgm, jsLeZero_camel, hc1, hc2, hc3]
              · simp [lend, h0, hgb, hgm, jsLeZero_camel, hc1, hc2, hc3]
  · intro s bid mid now book member h0 hm0 hgb hav hgm
    have hdue : lendDue s member none now = now + 14 := rfl
    simp [lend, h0, hm0, hgb, hgm, jsLeZero_camel, hdue, hav]

/-- Witness for C2: a concrete store whose single-copy book is out; the
lend call aborts on the CHECK constraint, leaving the store unchanged. -/
theorem C2_notAvailable_guard_dead_witness :
    lend demoStateZero 1 1 none 200
      = (Except.error LibError.checkConstraint, demoStateZero) :=
  C2_notAvailable_guard_dead.2 demoStateZero 1 1 200 demoBookZero demoMember
    (by decide) (by decide) rfl rfl rfl

/-- The seeded fine rules of `database/seeds/sample_data.sql`:
student {dailyRate 5, gracePeriod 0, maxFine 500}, faculty {3, 3, 300},
public {10, 0, 1000}. -/
def seededFineRules : MemberType → Option FineRule
  | .student => some ⟨5, 0, 500⟩
  | .faculty => some ⟨3, 3, 300⟩
  | .public => some ⟨10, 0, 1000⟩

/-- **C3** (code bug): the claim says a return whose whole-day overdue
count is positive but at most the member type's grace period records fine
0.  The return handler never reads `gracePeriod` (it destructures only
`dailyRate` and `maxFine`), so the computed fine does not depend on the
grace period at all, and at the seeded faculty rules (gracePeriod 3) a
2-day-overdue return records fine 2 * 3 = 6, not 0. -/
theorem C3_grace_period_ignored :
    (∀ (f : MemberType → Option FineRule) (g : Nat) (mt : MemberType) (due now : Nat),
        computeFine (some (fun k => (f k).map (fun r => { r with gracePeriod := g })))
            mt due now
          = computeFine (some f) mt due now) ∧
    computeFine (some seededFineRules) MemberType.faculty 10 12 = 6 ∧
    (seededFineRules MemberType.faculty).map FineRule.gracePeriod = some 3 ∧
    0 < 12 - 10 ∧ 12 - 10 ≤ 3 ∧
    0 < computeFine (some seededFineRules) MemberType.faculty 10 12 := by
  refine ⟨?_, by decide, by decide, by decide, by decide, by decide⟩
  intro f g mt due now
  have hd : dailyRateOf (some (fun k => (f k).map (fun r => { r with gracePeriod := g }))) mt
      = dailyRateOf (some f) mt := by
    cases hf : f mt <;> simp [dailyRateOf, hf]
  have hm : maxFineOf (some (fun k => (f k).map (fun r => { r with gracePeriod := g }))) mt
      = maxFineOf (some f) mt := by
    cases hf : f mt <;> simp [maxFineOf, hf]
  simp [computeFine, hd, hm]

/-- **C6** (code bug): the claim says a lend without an explicit due date
gets `transactionDate + lendingPeriod(memberType)` with per-type values
(student 14, faculty 30, public 7).  The handler looks the period up as
`lendingPeriods[member.memberType]`, and `member.memberType` is
`undefined` on the snake_case row, so the `|| 14` fallback always applies:
every successful lend without an explicit due date stores due date =
transaction date + 14, whatever the member's type and whatever Settings
holds. -/
theorem C6_due_date_always_14 :
    ∀ s bid mid now t, (lend s bid mid none now).1 = Except.ok t →
      t.due_date = now + 14 ∧ t.transaction_date = now := by
  intro s bid mid now t h
  by_cases h0 : bid = 0 ∨ mid = 0
  · simp only [lend, if_pos h0] at h
    simp at h
  · cases hgb : getBook s bid with
    | none =>
      simp only [lend, if_neg h0, hgb] at h
      simp at h
    | some book =>
      cases hgm : getMember s mid with
      | none =>
        simp only [lend, if_neg h0, hgb, jsLeZero_camel,
          Bool.false_eq_true, if_false, hgm] at h
        simp at h
      | some member =>
        have hdue : lendDue s member none now = now + 14 := rfl
        by_cases hc1 : lendDue s member none now < now
        · simp only [lend, if_neg h0, hgb, jsLeZero_camel,
            Bool.false_eq_true, if_false, hgm, if_pos hc1] at h
          simp at h
        · by_cases hc2 : book.available_copies = 0
          · simp only [lend, if_neg h0, hgb, jsLeZero_camel,
              Bool.false_eq_true, if_false, hgm, if_neg hc1, if_pos hc2] at h
            simp at h
          · by_cases hc3 : book.total_copies < book.available_copies - 1
            · simp only [lend, if_neg h0, hgb, jsLeZero_camel,
                Bool.false_eq_true, if_false, hgm, if_neg hc1, if_neg hc2, if_pos hc3] at h
              simp at h
            · simp only [lend, if_neg h0, hgb, jsLeZero_camel,
                Bool.false_eq_true, if_false, hgm, if_neg hc1, if_neg hc2, if_neg hc3] at h
              obtain rfl : newTxnRow s bid mid (lendDue s member none now) now = t := by
                simpa using h
              refine ⟨?_, rfl⟩
              show lendDue s member none now = now + 14
              exact hdue

/-- Witness for C6: a concrete lend to a faculty member with Settings
absent stores due date 100 + 14 (the claim's faculty fallback is 30). -/
theorem C6_due_date_always_14_witness :
    (newTxnRow demoState 1 1 114 100).due_date = 100 + 14 ∧
      (newTxnRow demoState 1 1 114 100).transaction_date = 100 :=
  C6_due_date_always_14 demoState 1 1 100 (newTxnRow demoState 1 1 114 100) rfl

/-- Inversion of a successful return: the components of the success path. -/
theorem returnOp_ok_elim {s : State} {tid now : Nat} {t' : Txn}
    (h : (returnOp s tid now).1 = Except.ok t') :
    ¬ tid = 0 ∧
    ∃ t b m, getTxnJoined s tid = some (t, b, m) ∧
      t.return_date = none ∧ ¬ now < t.transaction_date ∧
      ¬ b.total_copies < b.available_copies + 1 ∧
      t' = closedTxnRow t now
        (computeFine s.settings.fineRules m.member_type t.due_date now) ∧
      (returnOp s tid now).2 =
        { s with
          txns := s.txns.map (fun u => if u.id = tid then t' else u)
          books := s.books.map
            (fun c => if c.id = t.book_id then returnTrigger c else c) } := by
  by_cases h0 : tid = 0
  · simp only [returnOp, if_pos h0] at h
    simp at h
  · cases hj : getTxnJoined s tid with
    | none =>
      simp only [returnOp, if_neg h0, hj] at h
      simp at h
    | some tbm =>
      obtain ⟨t, b, m⟩ := tbm
      cases hrd : t.return_date with
      | some r =>
        simp only [returnOp, if_neg h0, hj, hrd] at h
        simp at h
      | none =>
        by_cases hc1 : now < t.transaction_date
        · simp only [returnOp, if_neg h0, hj, hrd, if_pos hc1] at h
          simp at h
        · by_cases hc2 : b.total_copies < b.available_copies + 1
          · simp only [returnOp, if_neg h0, hj, hrd, if_neg hc1, if_pos hc2] at h
            simp at h
          · simp only [returnOp, if_neg h0, hj, hrd, if_neg hc1, if_neg hc2] at h
            obtain rfl : closedTxnRow t now
                (computeFine s.settings.fineRules m.member_type t.due_date now) = t' := by
              simpa using h
            refine ⟨h0, t, b, m, rfl, hrd, hc1, hc2, rfl, ?_⟩
            simp only [returnOp, if_neg h0, hj, hrd, if_neg hc1, if_neg hc2]

/-- **C4**: with a configured rule of zero grace period (and nonzero rate
and cap, so the handler's `||` fallbacks do not replace them), a return of
an open transaction records: fine 0 when returned on or before the due
date; fine `min(daysOverdue * dailyRate, maxFine)` when `daysOverdue =
now - due_date > 0`; exactly `dailyRate` one day late (when `dailyRate ≤
maxFine`); and exactly `maxFine` once `daysOverdue * dailyRate` reaches
the cap. -/
theorem C4_fine_formula (s : State) (tid now : Nat) (t : Txn) (b : Book) (m : Member)
    (f : MemberType → Option FineRule) (rule : FineRule)
    (hs : s.settings.fineRules = some f)
    (hrule : f m.member_type = some rule)
    (hrate : rule.dailyRate ≠ 0) (hmax : rule.maxFine ≠ 0)
    (hgrace : rule.gracePeriod = 0)
    (htid : tid ≠ 0)
    (hj : getTxnJoined s tid = some (t, b, m))
    (hopen : t.return_date = none)
    (hdate : t.transaction_date ≤ now)
    (hcap : b.available_copies < b.total_copies) :
    ∃ t', (returnOp s tid now).1 = Except.ok t' ∧
      (now ≤ t.due_date → t'.fine_amount = 0) ∧
      (t.due_date < now →
        t'.fine_amount = min ((now - t.due_date) * rule.dailyRate) rule.maxFine) ∧
      (now = t.due_date + 1 → rule.dailyRate ≤ rule.maxFine →
        t'.fine_amount = rule.dailyRate) ∧
      (t.due_date < now → rule.maxFine ≤ (now - t.due_date) * rule.dailyRate →
        t'.fine_amount = rule.maxFine) := by
  have hc1 : ¬ now < t.transaction_date := Nat.not_lt.mpr hdate
  have hc2 : ¬ b.total_copies < b.available_copies + 1 := by omega
  have hdr : dailyRateOf (some f) m.member_type = rule.dailyRate := by
    simp [dailyRateOf, hrule, jsOrNat, hrate]
  have hmf : maxFineOf (some f) m.member_type = rule.maxFine := by
    simp [maxFineOf, hrule, jsOrNat, hmax]
  refine ⟨closedTxnRow t now
      (computeFine s.settings.fineRules m.member_type t.due_date now), ?_, ?_, ?_, ?_, ?_⟩
  · simp only [returnOp, if_neg htid, hj, hopen, if_neg hc1, if_neg hc2]
  · intro hle
    simp [closedTxnRow, computeFine, Nat.not_lt.mpr hle]
  · intro hlt
    have hpos : 0 < now - t.due_date := by omega
    simp only [closedTxnRow, hs]
    simp [computeFine, hlt, hpos, hdr, hmf]
  · intro hone hlemax
    have hlt : t.due_date < now := by omega
    have hpos : 0 < now - t.due_date := by omega
    have hone' : now - t.due_date = 1 := by omega
    simp only [closedTxnRow, hs]
    simp [computeFine, hlt, hpos, hdr, hmf, hone', Nat.min_eq_left hlemax]
  · intro hlt hcapped
    have hpos : 0 < now - t.due_date := by omega
    simp only [closedTxnRow, hs]
    simp [computeFine, hlt, hpos, hdr, hmf, Nat.min_eq_right hcapped]

/-- A student member (seeded student rule has gracePeriod 0). -/
def demoMemberStudent : Member :=
  { id := 1, name := "Stu", member_id := "MEM002", member_type := .student }

/-- The demo book with one of its two copies out. -/
def demoBookOut : Book := { demoBook with available_copies := 1 }

/-- A store with the seeded fine rules, one book (one copy out), one
student member and the open loan. -/
def demoStateC4 : State :=
  { books := [demoBookOut]
    members := [demoMemberStudent]
    txns := [demoOpenTxn]
    settings := { lendingPeriods := none, fineRules := some seededFineRules }
    nextBookId := 2
    nextTxnId := 2 }

/-- Witness for C4: returning the concrete open loan (due day 114) on day
120 — six days late at student rates — records fine min(6*5, 500) = 30. -/
theorem C4_fine_formula_witness :
    ∃ t', (returnOp demoStateC4 1 120).1 = Except.ok t' ∧
      (120 ≤ demoOpenTxn.due_date → t'.fine_amount = 0) ∧
      (demoOpenTxn.due_date < 120 →
        t'.fine_amount = min ((120 - demoOpenTxn.due_date) * (5 : Nat)) 500) ∧
      (120 = demoOpenTxn.due_date + 1 → (5 : Nat) ≤ 500 → t'.fine_amount = 5) ∧
      (demoOpenTxn.due_date < 120 → (500 : Nat) ≤ (120 - demoOpenTxn.due_date) * 5 →
        t'.fine_amount = 500) :=
  C4_fine_formula demoStateC4 1 120 demoOpenTxn demoBookOut demoMemberStudent
    seededFineRules ⟨5, 0, 500⟩ rfl rfl (by decide) (by decide) rfl (by decide)
    rfl rfl (by decide) (by decide)

/-- **C5**: once a return succeeds on a transaction id, a second return on
the same id fails with AlreadyReturned ('Book has already been returned')
and changes nothing (the whole store, in particular that transaction row,
is left as it was); a return on an id matching no transaction fails with
NotFound ('Transaction not found') and changes nothing. -/
theorem C5_return_idempotence_guard (s : State) :
    (∀ tid now t', (returnOp s tid now).1 = Except.ok t' →
      ∀ now₂, returnOp (returnOp s tid now).2 tid now₂
          = (Except.error LibError.alreadyReturned, (returnOp s tid now).2)) ∧
    (∀ tid now, tid ≠ 0 → (∀ u ∈ s.txns, u.id ≠ tid) →
      returnOp s tid now = (Except.error LibError.txnNotFound, s)) := by
  constructor
  · intro tid now t' h now₂
    obtain ⟨h0, t, b, m, hj, hrd, hc1, hc2, ht', hs'⟩ := returnOp_ok_elim h
    obtain ⟨hfind, hgb, hgm⟩ := getTxnJoined_eq_some hj
    have htid : t.id = tid := by
      have := List.find?_some hfind
      simpa using this
    have hbid : b.id = t.book_id := by
      have := List.find?_some hgb
      simpa using this
    have ht'id : t'.id = tid := by rw [ht']; exact htid
    have ht'book : t'.book_id = t.book_id := by rw [ht']; rfl
    have ht'ret : t'.return_date = some now := by rw [ht']; rfl
    rw [hs']
    have hfind' :
        (s.txns.map (fun u => if u.id = tid then t' else u)).find?
            (fun u => u.id == tid) = some t' := by
      rw [find?_map_of_pred s.txns (fun u => u.id == tid)
        (fun u => if u.id = tid then t' else u)
        (fun a => by by_cases ha : a.id = tid <;> simp [ha, ht'id])]
      rw [hfind]
      simp [htid]
    have hgb' :
        (s.books.map (fun c => if c.id = t.book_id then returnTrigger c else c)).find?
            (fun c => c.id == t'.book_id) = some (returnTrigger b) := by
      rw [find?_map_of_pred s.books (fun c => c.id == t'.book_id)
        (fun c => if c.id = t.book_id then returnTrigger c else c)
        (fun a => by by_cases ha : a.id = t.book_id <;> simp [ha, returnTrigger])]
      rw [show (fun c : Book => c.id == t'.book_id) = (fun c : Book => c.id == t.book_id) by
        rw [ht'book]]
      rw [show getBook s t.book_id = s.books.find? (fun c => c.id == t.book_id) from rfl] at hgb
      rw [hgb]
      simp [hbid]
    have hj' : getTxnJoined
        { s with
          txns := s.txns.map (fun u => if u.id = tid then t' else u)
          books := s.books.map
            (fun c => if c.id = t.book_id then returnTrigger c else c) } tid
        = some (t', returnTrigger b, m) := by
      simp only [getTxnJoined, hfind', getBook, getMember]
      simp only [hgb']
      have : s.members.find? (fun x => x.id == t'.member_id)
          = some m := by
        rw [show t'.member_id = t.member_id by rw [ht']; rfl]
        exact hgm
      simp only [this]
    simp only [returnOp, if_neg h0, hj', ht'ret]
  · intro tid now h0 hne
    have hfind : s.txns.find? (fun u => u.id == tid) = none := by
      rw [List.find?_eq_none]
      intro u hu
      simp [hne u hu]
    have hj : getTxnJoined s tid = none := by
      simp only [getTxnJoined, hfind]
    simp only [returnOp, if_neg h0, hj]

/-- Witness for C5: the concrete loan of `demoStateC4` is returned on day
120; a second return on day 130 fails with AlreadyReturned and leaves the
store as the first return left it. -/
theorem C5_return_idempotence_guard_witness :
    returnOp (returnOp demoStateC4 1 120).2 1 130
      = (Except.error LibError.alreadyReturned, (returnOp demoStateC4 1 120).2) :=
  (C5_return_idempotence_guard demoStateC4).1 1 120
    (closedTxnRow demoOpenTxn 120 30) rfl 130

/-- **C7**: every successful return increments the book's
`available_copies` by exactly one and sets its status to 'available'
unconditionally — the `update_book_status_on_return` trigger writes
`status = 'available'` with no CASE, however many other copies remain
out. -/
theorem C7_return_restores_available (s : State) (tid now : Nat) (t' : Txn)
    (h : (returnOp s tid now).1 = Except.ok t') :
    ∃ b, getBook s t'.book_id = some b ∧
      getBook (returnOp s tid now).2 t'.book_id = some (returnTrigger b) ∧
      (returnTrigger b).available_copies = b.available_copies + 1 ∧
      (returnTrigger b).status = BookStatus.available := by
  obtain ⟨h0, t, b, m, hj, hrd, hc1, hc2, ht', hs'⟩ := returnOp_ok_elim h
  obtain ⟨hfind, hgb, hgm⟩ := getTxnJoined_eq_some hj
  have hbid : b.id = t.book_id := by
    have := List.find?_some hgb
    simpa using this
  have ht'book : t'.book_id = t.book_id := by rw [ht']; rfl
  refine ⟨b, ?_, ?_, rfl, rfl⟩
  · rw [ht'book]
    exact hgb
  · rw [hs', ht'book]
    show (s.books.map (fun c => if c.id = t.book_id then returnTrigger c else c)).find?
        (fun c => c.id == t.book_id) = some (returnTrigger b)
    rw [find?_map_of_pred s.books (fun c => c.id == t.book_id)
      (fun c => if c.id = t.book_id then returnTrigger c else c)
      (fun a => by by_cases ha : a.id = t.book_id <;> simp [ha, returnTrigger])]
    rw [show getBook s t.book_id = s.books.find? (fun c => c.id == t.book_id) from rfl] at hgb
    rw [hgb]
    simp [hbid]

/-- Witness for C7: returning the concrete loan of `demoStateC4` bumps the
book from 1 to 2 available copies and sets it 'available'. -/
theorem C7_return_restores_available_witness :
    ∃ b, getBook demoStateC4 (closedTxnRow demoOpenTxn 120 30).book_id = some b ∧
      getBook (returnOp demoStateC4 1 120).2
          (closedTxnRow demoOpenTxn 120 30).book_id = some (returnTrigger b) ∧
      (returnTrigger b).available_copies = b.available_copies + 1 ∧
      (returnTrigger b).status = BookStatus.available :=
  C7_return_restores_available demoStateC4 1 120 (closedTxnRow demoOpenTxn 120 30) rfl

theorem joinRow_eq_some {s : State} {now : Nat} {t : Txn} {r : ActiveLoanRow}
    (h : joinRow s now t = some r) :
    r.txn = t ∧ r.days_overdue = (now : Int) - (t.due_date : Int) ∧
      r.status = (if t.due_date < now then LoanStatus.overdue else LoanStatus.on_time) := by
  cases hb : getBook s t.book_id with
  | none =>
    simp only [joinRow, hb] at h
    simp at h
  | some b =>
    cases hm : getMember s t.member_id with
    | none =>
      simp only [joinRow, hb, hm] at h
      simp at h
    | some m =>
      simp only [joinRow, hb, hm, Option.some.injEq] at h
      subst h
      exact ⟨rfl, rfl, rfl⟩

/-- **C8**: the active-loans and overdue-loans projections are pure
SELECTs — the store (in particular every transaction's `fine_amount`) is
returned unchanged — and a loan row appears in the overdue projection
exactly when its due date is strictly before the current date, annotated
with `days_overdue` equal to current date minus due date. -/
theorem C8_projections_pure_and_overdue (s : State) (now : Nat) :
    (getActiveTransactions s now).2 = s ∧
    (getOverdueTransactions s now).2 = s ∧
    (∀ r ∈ (getOverdueTransactions s now).1,
        r.txn ∈ s.txns ∧ isOpenLend r.txn = true ∧ r.txn.due_date < now ∧
        r.days_overdue = (now : Int) - (r.txn.due_date : Int)) ∧
    (∀ t ∈ s.txns, isOpenLend t = true → t.due_date < now →
        ∀ r, joinRow s now t = some r →
          r ∈ (getOverdueTransactions s now).1 ∧ r.txn = t) := by
  refine ⟨rfl, rfl, ?_, ?_⟩
  · intro r hr
    have hr' : r ∈ (s.txns.filter
        (fun t => isOpenLend t && decide (t.due_date < now))).filterMap (joinRow s now) := by
      have := List.mem_mergeSort.mp hr
      exact this
    obtain ⟨a, haf, hjoin⟩ := List.mem_filterMap.mp hr'
    obtain ⟨hamem, hacond⟩ := List.mem_filter.mp haf
    simp only [Bool.and_eq_true] at hacond
    obtain ⟨haopen, halt⟩ := hacond
    obtain ⟨hrt, hrd, _⟩ := joinRow_eq_some hjoin
    rw [hrt]
    exact ⟨hamem, haopen, of_decide_eq_true halt, hrd⟩
  · intro t hmem hopen hlt r hjoin
    have hrt := (joinRow_eq_some hjoin).1
    refine ⟨?_, hrt⟩
    rw [show (getOverdueTransactions s now).1
        = ((s.txns.filter (fun t => isOpenLend t && decide (t.due_date < now))).filterMap
            (joinRow s now)).mergeSort (fun a b => a.txn.due_date ≤ b.txn.due_date)
      from rfl]
    rw [List.mem_mergeSort]
    exact List.mem_filterMap.mpr
      ⟨t, List.mem_filter.mpr ⟨hmem, by simp [hopen, hlt]⟩, hjoin⟩

/-- The overdue row the projection produces for `demoOpenTxn` on day 120. -/
def demoRow : ActiveLoanRow :=
  { txn := demoOpenTxn
    book_title := "Dune"
    member_name := "Stu"
    member_type := .student
    status := .overdue
    days_overdue := 6 }

/-- Witness for C8: on day 120 the concrete open loan (due day 114) shows
up in the overdue projection as `demoRow`, and the store is unchanged. -/
theorem C8_projections_pure_and_overdue_witness :
    (getOverdueTransactions demoStateC4 120).2 = demoStateC4 ∧
      demoRow ∈ (getOverdueTransactions demoStateC4 120).1 ∧
      demoRow.txn = demoOpenTxn := by
  have h := C8_projections_pure_and_overdue demoStateC4 120
  have h4 := h.2.2.2 demoOpenTxn (by decide) (by decide) (by decide) demoRow (by rfl)
  exact ⟨h.2.1, h4.1, h4.2⟩

/-- **C9**: deleting a book or member that has at least one open loan
fails with the conflict error and removes nothing (the store is returned
unchanged); once the record has no open loans, deleting it succeeds and
removes it. -/
theorem C9_delete_conflict_guard (s : State) :
    (∀ bid, 0 < openLoansForBook s.txns bid →
        deleteBook s bid = (Except.error LibError.activeLoansBook, s)) ∧
    (∀ bid b, openLoansForBook s.txns bid = 0 → getBook s bid = some b →
        (deleteBook s bid).1 = Except.ok () ∧
        getBook (deleteBook s bid).2 bid = none) ∧
    (∀ mid, 0 < openLoansForMember s.txns mid →
        deleteMember s mid = (Except.error LibError.activeLoansMember, s)) ∧
    (∀ mid m, openLoansForMember s.txns mid = 0 → getMember s mid = some m →
        (deleteMember s mid).1 = Except.ok () ∧
        getMember (deleteMember s mid).2 mid = none) := by
  refine ⟨?_, ?_, ?_, ?_⟩
  · intro bid hopen
    simp only [deleteBook, if_pos hopen]
  · intro bid b hopen hgb
    have hnopen : ¬ 0 < openLoansForBook s.txns bid := by omega
    have hsome : ¬ ((getBook s bid).isNone = true) := by simp [hgb]
    refine ⟨?_, ?_⟩
    · simp only [deleteBook, if_neg hnopen, if_neg hsome]
    · simp only [deleteBook, if_neg hnopen, if_neg hsome]
      show (s.books.filter (fun c => c.id != bid)).find? (fun c => c.id == bid) = none
      rw [List.find?_eq_none]
      intro c hc
      have hne := (List.mem_filter.mp hc).2
      simp only [bne_iff_ne, ne_eq] at hne
      simp [hne]
  · intro mid hopen
    simp only [deleteMember, if_pos hopen]
  · intro mid m hopen hgm
    have hnopen : ¬ 0 < openLoansForMember s.txns mid := by omega
    have hsome : ¬ ((getMember s mid).isNone = true) := by simp [hgm]
    refine ⟨?_, ?_⟩
    · simp only [deleteMember, if_neg hnopen, if_neg hsome]
    · simp only [deleteMember, if_neg hnopen, if_neg hsome]
      show (s.members.filter (fun c => c.id != mid)).find? (fun c => c.id == mid) = none
      rw [List.find?_eq_none]
      intro c hc
      have hne := (List.mem_filter.mp hc).2
      simp only [bne_iff_ne, ne_eq] at hne
      simp [hne]

/-- Witness for C9: deleting the book of `demoStateZero` (one open loan)
fails with the conflict error and changes nothing; after its loan is
returned on day 120, deleting the same book succeeds and removes it. -/
theorem C9_delete_conflict_guard_witness :
    deleteBook demoStateZero 1 = (Except.error LibError.activeLoansBook, demoStateZero) ∧
      (deleteBook (returnOp demoStateZero 1 120).2 1).1 = Except.ok () ∧
      getBook (deleteBook (returnOp demoStateZero 1 120).2 1).2 1 = none := by
  refine ⟨(C9_delete_conflict_guard demoStateZero).1 1 (by decide), ?_⟩
  exact (C9_delete_conflict_guard (returnOp demoStateZero 1 120).2).2.1 1
    (returnTrigger demoBookZero) (by decide) rfl

/-- **C10**: an `updateBook` call may change only the descriptive columns
and `total_copies`; `available_copies` and `status` are never modified —
the successful update carries them over from the stored row, and in every
outcome every stored book keeps its `available_copies` and `status`. -/
theorem C10_updateBook_frame (s : State) (bid : Nat) (d : BookData) (y : Nat) :
    (∀ b', (updateBook s bid d y).1 = Except.ok b' →
      ∃ b, getBook s bid = some b ∧
        b'.available_copies = b.available_copies ∧
        b'.status = b.status ∧
        b'.title = d.title ∧
        b'.authors = d.authors ∧
        b'.total_copies = d.totalCopies) ∧
    (∀ c' ∈ (updateBook s bid d y).2.books, ∃ c ∈ s.books,
        c'.id = c.id ∧ c'.available_copies = c.available_copies ∧
        c'.status = c.status) := by
  by_cases h1 : d.title = "" ∨ d.authors = []
  · refine ⟨?_, ?_⟩
    · intro b' h
      simp only [updateBook, if_pos h1] at h
      simp at h
    · intro c' hc'
      simp only [updateBook, if_pos h1] at hc'
      exact ⟨c', hc', rfl, rfl, rfl⟩
  · by_cases h2 : d.totalCopies ≠ 0 ∧ (d.totalCopies < 1 ∨ 1000 < d.totalCopies)
    · refine ⟨?_, ?_⟩
      · intro b' h
        simp only [updateBook, if_neg h1, if_pos h2] at h
        simp at h
      · intro c' hc'
        simp only [updateBook, if_neg h1, if_pos h2] at hc'
        exact ⟨c', hc', rfl, rfl, rfl⟩
    · cases hgb : getBook s bid with
      | none =>
        refine ⟨?_, ?_⟩
        · intro b' h
          simp only [updateBook, if_neg h1, if_neg h2, hgb] at h
          simp at h
        · intro c' hc'
          simp only [updateBook, if_neg h1, if_neg h2, hgb] at hc'
          exact ⟨c', hc', rfl, rfl, rfl⟩
      | some b =>
        by_cases h3 : bookRowChecks (updatedBookRow b d) y = true
        · refine ⟨?_, ?_⟩
          · intro b' h
            simp only [updateBook, if_neg h1, if_neg h2, hgb, if_pos h3] at h
            obtain rfl : updatedBookRow b d = b' := by simpa using h
            exact ⟨b, rfl, rfl, rfl, rfl, rfl, rfl⟩
          · intro c' hc'
            simp only [updateBook, if_neg h1, if_neg h2, hgb, if_pos h3] at hc'
            rcases mem_map_update hc' with ⟨c₀, hc₀, _, rfl⟩ | ⟨c₀, hc₀, _, rfl⟩
            · exact ⟨c₀, hc₀, rfl, rfl, rfl⟩
            · exact ⟨c', hc₀, rfl, rfl, rfl⟩
        · refine ⟨?_, ?_⟩
          · intro b' h
            simp only [updateBook, if_neg h1, if_neg h2, hgb, if_neg h3] at h
            simp at h
          · intro c' hc'
            simp only [updateBook, if_neg h1, if_neg h2, hgb, if_neg h3] at hc'
            exact ⟨c', hc', rfl, rfl, rfl⟩

/-- A concrete update payload: new title and a third copy. -/
def demoBookData : BookData :=
  { title := "Dune II"
    authors := ["Frank Herbert"]
    isbn := none
    publisher := none
    publicationYear := none
    genres := ["scifi"]
    language := some "en"
    totalCopies := 3
    location := none
    tags := []
    description := none
    coverImagePath := none }

/-- Witness for C10: a concrete successful update changes title and
total_copies but returns the stored `available_copies`/`status` intact. -/
theorem C10_updateBook_frame_witness :
    ∃ b, getBook demoState 1 = some b ∧
      (updatedBookRow demoBook demoBookData).available_copies = b.available_copies ∧
      (updatedBookRow demoBook demoBookData).status = b.status ∧
      (updatedBookRow demoBook demoBookData).title = demoBookData.title ∧
      (updatedBookRow demoBook demoBookData).authors = demoBookData.authors ∧
      (updatedBookRow demoBook demoBookData).total_copies = demoBookData.totalCopies :=
  (C10_updateBook_frame demoState 1 demoBookData 2024).1
    (updatedBookRow demoBook demoBookData) rfl

end LibraryMgmt
